import Mathlib

/-!
Verification of the JSNOT path-accessor module (`src/bigrep/jsnot.py`).

The development shallowly embeds the module: Python values decoded from JSON
are the inductive type `JValue`; Python exceptions relevant to the module are
the type `Err`; fallible operations return `Except Err _`.  The external JSON
text decoder (`json.loads`, an external collaborator of the module) is
modelled explicitly as a recursive-descent parser.
-/

set_option autoImplicit false

namespace Jsnot

/-- Decoded structured data: the possible results of JSON decoding, which is
also the domain of values a JSNOT wrapper can hold.  `obj` is a Python `dict`
with string keys (insertion-ordered association list), `arr` a Python `list`,
`num` a Python `int` (floating-point numbers are outside the model). -/
inductive JValue where
  | obj : List (String × JValue) → JValue
  | arr : List JValue → JValue
  | str : String → JValue
  | num : Int → JValue
  | bool : Bool → JValue
  | null : JValue

/-- Python runtime classes that can be passed to `satisfy`/`cast` in the
model, mirroring the classes a decoded JSON value can have. -/
inductive PyClass where
  | dict | list | str | int | float | bool | NoneType
  deriving DecidableEq, Repr

/-- Python exceptions that the module can raise: `keyError k` is
`KeyError(k)` (a `LookupError`); `typeError (some c)` is the
`TypeError(classinfo)` raised by `satisfy`; `typeError none` is the
`TypeError` raised when subscripting a non-dict value; `jsonDecodeError` is
`json.JSONDecodeError` (a `ValueError`). -/
inductive Err where
  | keyError (k : String)
  | typeError (c : Option PyClass)
  | jsonDecodeError
  deriving DecidableEq, Repr

/-- Whether an exception is caught by `except LookupError` (the handler used
by `get` and `has`): only `KeyError` is a `LookupError`; `TypeError` and
`JSONDecodeError` are not. -/
def isLookupError : Err → Bool
  | .keyError _ => true
  | _ => false

/-- Python objects that can be returned to a caller of `get` or `cast`:
either a JSNOT instance wrapping a value, a bare (unwrapped) value, or a
class object (`type(val)` is a class, not a value). -/
inductive PyObj where
  | jsnot (v : JValue)
  | raw (v : JValue)
  | cls (c : PyClass)

/-- Characters of the class `["/bfnrtu]` in `DELIMITER_PATTERN`. -/
def isEsc (c : Char) : Bool :=
  c == '"' || c == '/' || c == 'b' || c == 'f' || c == 'n' || c == 'r' ||
  c == 't' || c == 'u'

/-- Whether a suffix of the input matches the lookahead body
`\\["/bfnrtu]` of `DELIMITER_PATTERN`: a backslash followed by one of the
characters of the class. -/
def escProtected : List Char → Bool
  | c :: d :: _ => c == '\\' && isEsc d
  | _ => false

/-- Whether `DELIMITER_PATTERN` (regex `\\(?!\\["/bfnrtu])`) matches at the
head of the given suffix: a backslash whose following text does not match the
lookahead body.  The whole match consumes exactly one character. -/
def delimMatch : List Char → Bool
  | c :: rest => c == '\\' && !escProtected rest
  | [] => false

/-- `re.split` specialised to a pattern that consumes exactly one character
wherever it matches: scanning left to right, each position where the match
predicate holds on the remaining suffix ends the current segment and the
matched character is dropped. -/
def reSplit (m : List Char → Bool) : List Char → List (List Char)
  | [] => [[]]
  | c :: rest =>
    if m (c :: rest) then [] :: reSplit m rest
    else
      match reSplit m rest with
      | s :: ss => (c :: s) :: ss
      | [] => [[c]]

/-- `re.split(JSNOT.DELIMITER_PATTERN, item)`: the path tokenizer of
`__getitem__`. -/
def tokenize (s : String) : List String :=
  (reSplit delimMatch s.data).map List.asString

/-- First-match lookup in a Python dict modelled as an association list
(`kvs[key]` success/failure). -/
def assocFind : List (String × JValue) → String → Option JValue
  | [], _ => none
  | (k, v) :: rest, key => if k == key then some v else assocFind rest key

/-- One step of the `reduce` in `__getitem__`: `prev[cur]`.  Subscripting a
dict raises `KeyError` when the key is absent; subscripting any non-dict
value with a string key raises `TypeError`. -/
def subscript (prev : JValue) (cur : String) : Except Err JValue :=
  match prev with
  | .obj kvs =>
    match assocFind kvs cur with
    | some v => .ok v
    | none => .error (.keyError cur)
  | _ => .error (.typeError none)

/-- Whether a value is a Python `dict` (`isinstance(root, dict)`). -/
def isDict : JValue → Bool
  | .obj _ => true
  | _ => false

/-- `JSNOT.__getitem__`: if the wrapped value is a dict, tokenize the path
and fold `prev[cur]` over the segments starting from the wrapped value;
otherwise return the wrapped value unchanged. -/
def getitem (self : JValue) (item : String) : Except Err JValue :=
  match self with
  | .obj kvs => (tokenize item).foldlM subscript (JValue.obj kvs)
  | v => .ok v

/-- JSON insignificant whitespace characters: blank, tab, line feed and
carriage return (code points 32, 9, 10, 13). -/
def isWs (c : Char) : Bool :=
  c.toNat == 32 || c.toNat == 9 || c.toNat == 10 || c.toNat == 13

/-- Drop leading JSON whitespace. -/
def skipWs (cs : List Char) : List Char :=
  cs.dropWhile isWs

/-- Value of a hexadecimal digit, if the character is one (by code point:
digits 48-57, lowercase 97-102, uppercase 65-70). -/
def hexVal (c : Char) : Option Nat :=
  let n := c.toNat
  if 48 ≤ n ∧ n ≤ 57 then some (n - 48)
  else if 97 ≤ n ∧ n ≤ 102 then some (n - 87)
  else if 65 ≤ n ∧ n ≤ 70 then some (n - 55)
  else none

/-- Character denoted by a single-character JSON string escape. -/
def escChar : Char → Option Char
  | '"' => some '"'
  | '\\' => some '\\'
  | '/' => some '/'
  | 'b' => some (Char.ofNat 8)
  | 'f' => some (Char.ofNat 12)
  | 'n' => some '\n'
  | 'r' => some (Char.ofNat 13)
  | 't' => some '\t'
  | _ => none

/-- Modelled from the spec: the string scanner of the external JSON decoder
collaborator (`json.loads` of the Python standard library, which is not part
of this repository).  Invoked after an opening quote has been consumed, it
returns the decoded content characters together with the input remaining
after the closing quote; it rejects unterminated strings, unknown escapes
and raw control characters, as strict-mode `json.loads` does. -/
def parseString : List Char → Option (List Char × List Char)
  | [] => none
  | '"' :: rest => some ([], rest)
  | '\\' :: 'u' :: h1 :: h2 :: h3 :: h4 :: rest =>
    match hexVal h1, hexVal h2, hexVal h3, hexVal h4 with
    | some a, some b, some c, some d =>
      (parseString rest).map fun p =>
        (Char.ofNat (((a * 16 + b) * 16 + c) * 16 + d) :: p.1, p.2)
    | _, _, _, _ => none
  | '\\' :: e :: rest =>
    match escChar e with
    | some c => (parseString rest).map fun p => (c :: p.1, p.2)
    | none => none
  | c :: rest =>
    if c.toNat < 32 then none
    else (parseString rest).map fun p => (c :: p.1, p.2)

/-- Numeric value of a list of decimal digits. -/
def digitsVal (ds : List Char) : Nat :=
  ds.foldl (fun n c => 10 * n + (c.toNat - 48)) 0

/-- Modelled from the spec: the number scanner of the external JSON decoder
collaborator, restricted to integers (floating-point literals are outside
the model and are rejected).  Mirrors the JSON grammar for integers: an
optional minus sign and digits without a superfluous leading zero. -/
def parseNumber (cs : List Char) : Option (Int × List Char) :=
  let p := match cs with
    | '-' :: t => (true, t)
    | _ => (false, cs)
  let ds := p.2.takeWhile Char.isDigit
  let rest := p.2.dropWhile Char.isDigit
  if ds.isEmpty then none
  else if decide (1 < ds.length) && (ds.head? == some '0') then none
  else
    match rest with
    | '.' :: _ => none
    | 'e' :: _ => none
    | 'E' :: _ => none
    | _ =>
      let n : Int := Int.ofNat (digitsVal ds)
      some (if p.1 then -n else n, rest)

/-- Insertion into a Python dict under construction: a repeated key replaces
the earlier value in place, a new key is appended at the end. -/
def insertKV : List (String × JValue) → String → JValue → List (String × JValue)
  | [], k, v => [(k, v)]
  | (k', v') :: rest, k, v =>
    if k' == k then (k, v) :: rest else (k', v') :: insertKV rest k v

/-- Modelled from the spec: the object-member loop of the external JSON
decoder collaborator.  `pv` parses one JSON value (the caller passes the
value parser at the next fuel level).  Parses `"key" : value` members
separated by commas up to the closing brace. -/
def objLoop (pv : List Char → Option (JValue × List Char)) :
    Nat → List Char → List (String × JValue) →
    Option (List (String × JValue) × List Char)
  | 0, _, _ => none
  | fuel + 1, cs, acc =>
    match skipWs cs with
    | '"' :: rest =>
      match parseString rest with
      | some (k, r1) =>
        match skipWs r1 with
        | ':' :: r2 =>
          match pv r2 with
          | some (v, r3) =>
            match skipWs r3 with
            | ',' :: r4 => objLoop pv fuel r4 (insertKV acc (List.asString k) v)
            | '}' :: r4 => some (insertKV acc (List.asString k) v, r4)
            | _ => none
          | none => none
        | _ => none
      | none => none
    | _ => none

/-- Modelled from the spec: the array-item loop of the external JSON decoder
collaborator.  Parses values separated by commas up to the closing
bracket. -/
def arrLoop (pv : List Char → Option (JValue × List Char)) :
    Nat → List Char → List JValue → Option (List JValue × List Char)
  | 0, _, _ => none
  | fuel + 1, cs, acc =>
    match pv cs with
    | some (v, r) =>
      match skipWs r with
      | ',' :: r2 => arrLoop pv fuel r2 (acc ++ [v])
      | ']' :: r2 => some (acc ++ [v], r2)
      | _ => none
    | none => none

/-- Modelled from the spec: the value scanner of the external JSON decoder
collaborator (`decode(text) -> structuredData`).  Fuel bounds the nesting
depth; the top-level wrapper passes ample fuel for the input length. -/
def parseValue : Nat → List Char → Option (JValue × List Char)
  | 0, _ => none
  | fuel + 1, cs =>
    match skipWs cs with
    | 'n' :: 'u' :: 'l' :: 'l' :: rest => some (.null, rest)
    | 't' :: 'r' :: 'u' :: 'e' :: rest => some (.bool true, rest)
    | 'f' :: 'a' :: 'l' :: 's' :: 'e' :: rest => some (.bool false, rest)
    | '"' :: rest => (parseString rest).map fun p => (.str (List.asString p.1), p.2)
    | '{' :: rest =>
      match skipWs rest with
      | '}' :: r => some (.obj [], r)
      | other => (objLoop (parseValue fuel) (other.length + 1) other []).map
          fun p => (.obj p.1, p.2)
    | '[' :: rest =>
      match skipWs rest with
      | ']' :: r => some (.arr [], r)
      | other => (arrLoop (parseValue fuel) (other.length + 1) other []).map
          fun p => (.arr p.1, p.2)
    | other => (parseNumber other).map fun p => (.num p.1, p.2)

/-- Modelled from the spec: the external JSON decoder collaborator
`json.loads`: decode JSON text into structured data, failing with a decode
error on malformed input or trailing data. -/
def json_loads (s : String) : Except Err JValue :=
  match parseValue (3 * s.data.length + 3) s.data with
  | some (v, rest) =>
    if (skipWs rest).isEmpty then .ok v else .error .jsonDecodeError
  | none => .error .jsonDecodeError

/-- `JSNOT.__init__` restricted to non-stream sources: a string source is
decoded as JSON text, any other value is wrapped as-is.  The result is the
`_value` attribute of the constructed wrapper. -/
def JSNOT_init (value : JValue) : Except Err JValue :=
  match value with
  | .str s => json_loads s
  | v => .ok v

/-- `JSNOT.at_path`: look the path up with `__getitem__` and wrap the raw
result in a new JSNOT (whose constructor re-decodes string results). -/
def at_path (self : JValue) (path : String) : Except Err JValue :=
  (getitem self path).bind JSNOT_init

/-- `JSNOT.get`: `at_path`, with `except LookupError: return default`.  The
default is returned bare (`PyObj.raw`), a found value wrapped
(`PyObj.jsnot`); exceptions other than `LookupError` propagate. -/
def get (self : JValue) (path : String) (default : JValue) : Except Err PyObj :=
  match at_path self path with
  | .ok v => .ok (.jsnot v)
  | .error e => if isLookupError e then .ok (.raw default) else .error e

/-- `JSNOT.has`: `self[path]` with `except LookupError: return False`, else
`True`; exceptions other than `LookupError` propagate. -/
def has (self : JValue) (path : String) : Except Err Bool :=
  match getitem self path with
  | .ok _ => .ok true
  | .error e => if isLookupError e then .ok false else .error e

/-- `isinstance(value, classinfo)` on the modelled classes.  A Python `bool`
is also an instance of `int` (`bool` subclasses `int`). -/
def isInstance : JValue → PyClass → Bool
  | .obj _, .dict => true
  | .arr _, .list => true
  | .str _, .str => true
  | .num _, .int => true
  | .bool _, .bool => true
  | .bool _, .int => true
  | .null, .NoneType => true
  | _, _ => false

/-- `type(val)`: the runtime class of a wrapped value. -/
def typeOf : JValue → PyClass
  | .obj _ => .dict
  | .arr _ => .list
  | .str _ => .str
  | .num _ => .int
  | .bool _ => .bool
  | .null => .NoneType

/-- `JSNOT.satisfy`: raise `TypeError(classinfo)` unless the wrapped value
is an instance of `classinfo`; on success return the same wrapper. -/
def satisfy (self : JValue) (classinfo : PyClass) : Except Err JValue :=
  if isInstance self classinfo then .ok self else .error (.typeError (some classinfo))

/-- `JSNOT.cast`: `return type(val) if typ is not None else val` — with a
class given it returns the runtime class of the wrapped value (a class
object, no conversion happens); with `None` it returns the raw value.  The
`except ValueError` clause of the source is unreachable and has no
counterpart here. -/
def cast (self : JValue) (typ : Option PyClass) : PyObj :=
  match typ with
  | some _ => .cls (typeOf self)
  | none => .raw self

/-- Follows the amended claim C2 words (not the source): recursive
traversal that fails with `KeyError k` exactly when the mapping reached
lacks the segment `k`, fails with `TypeError` when a non-mapping value is
reached mid-path with segments remaining, and otherwise returns the value
reached. -/
def walkSpec : JValue → List String → Except Err JValue
  | v, [] => .ok v
  | .obj kvs, k :: rest =>
    match assocFind kvs k with
    | some w => walkSpec w rest
    | none => .error (.keyError k)
  | _, _ :: _ => .error (.typeError none)

/-- Follows claim C1 words (not the source): the escape-indicator
characters as the claim lists them, including the delimiter itself. -/
def isEscClaim (c : Char) : Bool :=
  c == '"' || c == '\\' || c == '/' || c == 'b' || c == 'f' || c == 'n' ||
  c == 'r' || c == 't' || c == 'u'

/-- Follows claim C1 words (not the source): a delimiter is a separator
unless the single character immediately after it is an escape indicator. -/
def delimMatchClaim : List Char → Bool
  | c :: rest =>
    c == '\\' && !(match rest with
      | d :: _ => isEscClaim d
      | [] => false)
  | [] => false

/-- Follows claim C1 words (not the source): tokenization splitting at the
delimiters that claim C1 designates as separators. -/
def tokenizeClaim (s : String) : List String :=
  (reSplit delimMatchClaim s.data).map List.asString

/-! ### Helper lemmas about the tokenizer -/

theorem reSplit_ne_nil (m : List Char → Bool) : ∀ cs, reSplit m cs ≠ []
  | [] => by simp [reSplit]
  | c :: rest => by
    simp only [reSplit]
    split
    · simp
    · split
      · simp
      · simp

/-- Characters that cannot start a delimiter match are glued onto the first
segment produced by splitting the rest of the input. -/
theorem reSplit_glue :
    ∀ p x : List Char, (∀ c ∈ p, c ≠ '\\') →
    ∀ s ss, reSplit delimMatch x = s :: ss →
    reSplit delimMatch (p ++ x) = (p ++ s) :: ss := by
  intro p
  induction p with
  | nil =>
    intro x _ s ss h
    simpa using h
  | cons c p ih =>
    intro x hp s ss h
    have hc : c ≠ '\\' := hp c (List.mem_cons_self c p)
    have hrec := ih x (fun d hd => hp d (List.mem_cons_of_mem c hd)) s ss h
    have hdm : delimMatch (c :: (p ++ x)) = false := by
      simp [delimMatch, hc]
    simp only [List.cons_append, reSplit, List.append_eq, hdm, Bool.false_eq_true,
      if_false, hrec]

/-- A string without backslashes is a single segment. -/
theorem reSplit_no_backslash (cs : List Char) (h : ∀ c ∈ cs, c ≠ '\\') :
    reSplit delimMatch cs = [cs] := by
  have := reSplit_glue cs [] h [] [] rfl
  simpa using this

/-- A backslash whose suffix does not match the lookahead body is a
separator: the backslash-free prefix before it becomes a segment. -/
theorem reSplit_split_at (p r : List Char) (hp : ∀ c ∈ p, c ≠ '\\')
    (hpro : escProtected r = false) :
    reSplit delimMatch (p ++ '\\' :: r) = p :: reSplit delimMatch r := by
  have h1 : reSplit delimMatch ('\\' :: r) = [] :: reSplit delimMatch r := by
    simp [reSplit, delimMatch, hpro]
  have := reSplit_glue p ('\\' :: r) hp [] (reSplit delimMatch r) h1
  simpa using this

/-- A backslash whose suffix matches the lookahead body is not a separator:
it is glued, together with the backslash-free prefix before it, onto the
first segment of the split of the suffix. -/
theorem reSplit_nosplit_at (p r : List Char) (hp : ∀ c ∈ p, c ≠ '\\')
    (hpro : escProtected r = true) :
    ∃ s ss, reSplit delimMatch r = s :: ss ∧
      reSplit delimMatch (p ++ '\\' :: r) = (p ++ '\\' :: s) :: ss := by
  obtain ⟨s, ss, hss⟩ : ∃ s ss, reSplit delimMatch r = s :: ss := by
    cases h : reSplit delimMatch r with
    | nil => exact absurd h (reSplit_ne_nil _ _)
    | cons s ss => exact ⟨s, ss, rfl⟩
  have h1 : reSplit delimMatch ('\\' :: r) = ('\\' :: s) :: ss := by
    simp [reSplit, delimMatch, hpro, hss]
  exact ⟨s, ss, hss, reSplit_glue p ('\\' :: r) hp _ _ h1⟩

/-! ### Claim C1 -/

/-- Claim C1, counterexample: the four-character path `a`, backslash,
backslash, `b` does not stay a single segment as the claim states — the
source splits it at the second backslash into the segments `a`+backslash
and `b`.  Moreover the splitting rule the claim states (no split when the
single next character is an escape indicator) contradicts the source and the
claim's own first example already on the three-character path `a`,
backslash, `b`. -/
theorem C1_counterexample :
    tokenize (String.mk ['a', '\\', '\\', 'b']) = [String.mk ['a', '\\'], "b"] ∧
    tokenize (String.mk ['a', '\\', '\\', 'b']) ≠ [String.mk ['a', '\\', 'b']] ∧
    tokenize (String.mk ['a', '\\', '\\', 'b']) ≠ [String.mk ['a', '\\', '\\', 'b']] ∧
    tokenizeClaim (String.mk ['a', '\\', 'b']) = [String.mk ['a', '\\', 'b']] ∧
    tokenize (String.mk ['a', '\\', 'b']) = ["a", "b"] := by
  refine ⟨by decide, by decide, by decide, by decide, by decide⟩

/-- Claim C1 (amended): tokenization splits the path at each backslash
except where that backslash is immediately followed by the two-character
sequence of a second backslash and one of the characters double quote, `/`,
`b`, `f`, `n`, `r`, `t`, `u`; such a protected backslash is kept inside the
surrounding segment.  In particular the three-character path `a`, backslash,
`b` splits into `["a", "b"]`, and the four-character path `a`, backslash,
backslash, `b` splits at its second backslash into the segments
`a`+backslash and `b`. -/
theorem C1_amended_thm :
    (∀ p r : List Char, (∀ c ∈ p, c ≠ '\\') →
      (escProtected r = false →
        reSplit delimMatch (p ++ '\\' :: r) = p :: reSplit delimMatch r) ∧
      (escProtected r = true →
        ∃ s ss, reSplit delimMatch r = s :: ss ∧
          reSplit delimMatch (p ++ '\\' :: r) = (p ++ '\\' :: s) :: ss)) ∧
    tokenize (String.mk ['a', '\\', 'b']) = ["a", "b"] ∧
    tokenize (String.mk ['a', '\\', '\\', 'b']) = [String.mk ['a', '\\'], "b"] :=
  ⟨fun p r hp => ⟨reSplit_split_at p r hp, reSplit_nosplit_at p r hp⟩,
    by decide, by decide⟩

/-- Witness for the amended claim C1 at concrete inputs: the backslash in
`a`, backslash, `b` separates, and the first backslash of the protected
suffix backslash, `n`, `x` does not. -/
theorem C1_amended_witness :
    reSplit delimMatch (['a'] ++ '\\' :: ['b']) = ['a'] :: reSplit delimMatch ['b'] ∧
    (∃ s ss, reSplit delimMatch ['\\', 'n', 'x'] = s :: ss ∧
      reSplit delimMatch ([] ++ '\\' :: ['\\', 'n', 'x']) = ([] ++ '\\' :: s) :: ss) :=
  ⟨(C1_amended_thm.1 ['a'] ['b'] (by decide)).1 (by decide),
    (C1_amended_thm.1 [] ['\\', 'n', 'x'] (by decide)).2 (by decide)⟩

/-! ### Claim C8 -/

/-- Claim C8: tokenization edge cases — the empty path gives the single
empty segment; a path without backslashes gives itself as single segment;
and two consecutive backslashes followed by a character that is neither a
backslash nor in the escape class both separate, leaving an empty segment
between them. -/
theorem C8_thm :
    tokenize "" = [""] ∧
    (∀ s : String, (∀ c ∈ s.data, c ≠ '\\') → tokenize s = [s]) ∧
    (∀ c : Char, c ≠ '\\' → isEsc c = false →
      tokenize (String.mk ['a', '\\', '\\', c]) = ["a", "", String.mk [c]]) := by
  refine ⟨by decide, ?_, ?_⟩
  · intro s hs
    unfold tokenize
    rw [reSplit_no_backslash s.data hs]
    rfl
  · intro c hc hesc
    have h1 : reSplit delimMatch (['a'] ++ '\\' :: ('\\' :: [c])) =
        ['a'] :: reSplit delimMatch ('\\' :: [c]) :=
      reSplit_split_at ['a'] ('\\' :: [c]) (by decide) (by simp [escProtected, hesc])
    have h2 : reSplit delimMatch ([] ++ '\\' :: [c]) = [] :: reSplit delimMatch [c] :=
      reSplit_split_at [] [c] (by simp) rfl
    have h3 : reSplit delimMatch [c] = [[c]] :=
      reSplit_no_backslash [c] (by simpa using hc)
    unfold tokenize
    show (reSplit delimMatch (['a'] ++ '\\' :: ('\\' :: [c]))).map List.asString = _
    rw [h1]
    rw [show reSplit delimMatch ('\\' :: [c]) = reSplit delimMatch ([] ++ '\\' :: [c]) from rfl,
      h2, h3]
    rfl

/-- Witness for claim C8 at concrete inputs. -/
theorem C8_witness :
    tokenize "abc" = ["abc"] ∧
    tokenize (String.mk ['a', '\\', '\\', 'x']) = ["a", "", String.mk ['x']] :=
  ⟨C8_thm.2.1 "abc" (by decide), C8_thm.2.2 'x' (by decide) (by decide)⟩

/-! ### Helper lemmas about traversal and decoding -/

/-- The left fold of `prev[cur]` over the segments agrees with the
declarative recursive traversal. -/
theorem foldlM_subscript_eq_walkSpec (segs : List String) :
    ∀ v : JValue, List.foldlM subscript v segs = walkSpec v segs := by
  induction segs with
  | nil => intro v; cases v <;> rfl
  | cons k rest ih =>
    intro v
    rw [List.foldlM_cons]
    cases v with
    | obj kvs =>
      show (subscript (JValue.obj kvs) k).bind (fun w => List.foldlM subscript w rest) = _
      cases h : assocFind kvs k with
      | some w =>
        simp only [subscript, h, walkSpec, Except.bind]
        exact ih w
      | none => simp only [subscript, h, walkSpec, Except.bind]
    | arr l => rfl
    | str s => rfl
    | num n => rfl
    | bool b => rfl
    | null => rfl

/-- `__getitem__` on a mapping is the declarative traversal of the
tokenized path. -/
theorem getitem_obj (kvs : List (String × JValue)) (path : String) :
    getitem (JValue.obj kvs) path = walkSpec (JValue.obj kvs) (tokenize path) :=
  foldlM_subscript_eq_walkSpec (tokenize path) (JValue.obj kvs)

/-- Every failure of the modelled decoder is the decode error. -/
theorem json_loads_error_eq (s : String) (e : Err) (h : json_loads s = .error e) :
    e = .jsonDecodeError := by
  unfold json_loads at h
  split at h
  · split at h
    · exact Except.noConfusion h
    · injection h with h'
      exact h'.symm
  · injection h with h'
    exact h'.symm

/-- Every failure of the constructor is the decode error; in particular the
constructor never raises a lookup failure. -/
theorem JSNOT_init_error_eq (w : JValue) (e : Err) (h : JSNOT_init w = .error e) :
    e = .jsonDecodeError := by
  cases w <;> simp only [JSNOT_init] at h
  case str s => exact json_loads_error_eq s e h
  all_goals exact Except.noConfusion h

/-! ### Claim C2 -/

/-- Claim C2, counterexample: on the wrapped mapping with the single pair
`a` to `1` and the path `a`, backslash, `b`, traversal indexes the
non-mapping value `1` with the segment `b`; the source raises `TypeError`
there, which is not a lookup-failure condition (not caught by the
`except LookupError` handlers of `get` and `has`), whereas the claim states
this case fails with the catchable `KeyNotFound`. -/
theorem C2_counterexample :
    getitem (JValue.obj [("a", JValue.num 1)]) (String.mk ['a', '\\', 'b']) =
      .error (.typeError none) ∧
    isLookupError (.typeError none) = false :=
  ⟨rfl, rfl⟩

/-- Claim C2 (amended): on a wrapped mapping, `__getitem__` performs the
declarative traversal of the tokenized path: it fails with the
lookup-failure `KeyError k` exactly when the mapping reached lacks the
segment `k`; indexing a non-mapping value reached mid-path raises
`TypeError`, which is not a lookup-failure condition; otherwise it returns
the raw sub-value reached by indexing all segments in order. -/
theorem C2_amended_thm (kvs : List (String × JValue)) (path : String) :
    getitem (JValue.obj kvs) path = walkSpec (JValue.obj kvs) (tokenize path) ∧
    (∀ k, isLookupError (.keyError k) = true) ∧
    isLookupError (.typeError none) = false :=
  ⟨getitem_obj kvs path, fun _ => rfl, rfl⟩

/-- Witness for the amended claim C2 at a concrete mapping and path. -/
theorem C2_amended_witness :
    getitem (JValue.obj [("a", JValue.obj [("b", JValue.num 1)])])
        (String.mk ['a', '\\', 'b'])
      = walkSpec (JValue.obj [("a", JValue.obj [("b", JValue.num 1)])])
          (tokenize (String.mk ['a', '\\', 'b'])) :=
  (C2_amended_thm [("a", JValue.obj [("b", JValue.num 1)])]
    (String.mk ['a', '\\', 'b'])).1

/-! ### Claim C7 -/

/-- Claim C7: when the wrapped value is not a mapping, `__getitem__`
returns it unchanged for every path — the path is ignored and no
tokenization-driven indexing occurs. -/
theorem C7_thm (v : JValue) (path : String) (h : isDict v = false) :
    getitem v path = .ok v := by
  cases v with
  | obj kvs => exact absurd h (by simp [isDict])
  | arr l => rfl
  | str s => rfl
  | num n => rfl
  | bool b => rfl
  | null => rfl

/-- Witness for claim C7 at a concrete non-mapping value and path. -/
theorem C7_witness :
    isDict (JValue.num 3) = false ∧
    getitem (JValue.num 3) (String.mk ['x', '\\', 'y']) = .ok (JValue.num 3) :=
  ⟨rfl, C7_thm (JValue.num 3) (String.mk ['x', '\\', 'y']) rfl⟩

/-! ### Claim C3 -/

/-- Claim C3, counterexample: on the wrapped mapping with the single pair
`a` to `1` and the path `a`, backslash, `b`, `at_path` fails with
`TypeError` — not with the lookup-failure `KeyNotFound` — yet `has` does
not return true: it raises the same `TypeError` instead of returning a
boolean, contradicting the claim that `has` always answers without
raising. -/
theorem C3_counterexample :
    has (JValue.obj [("a", JValue.num 1)]) (String.mk ['a', '\\', 'b']) =
      .error (.typeError none) ∧
    at_path (JValue.obj [("a", JValue.num 1)]) (String.mk ['a', '\\', 'b']) =
      .error (.typeError none) ∧
    isLookupError (.typeError none) = false :=
  ⟨rfl, rfl, rfl⟩

/-- Claim C3 (amended): `has(path)` returns true exactly when the raw
lookup succeeds and false exactly when `atPath(path)` fails with the
lookup-failure `KeyNotFound`; whenever `has` raises instead of answering,
`atPath` raises that same non-lookup error.  So `has` and `atPath` never
disagree on whether the path resolves whenever `has` answers at all. -/
theorem C3_amended_thm (v : JValue) (path : String) :
    (has v path = .ok true ↔ ∃ w, getitem v path = .ok w) ∧
    (has v path = .ok false ↔ ∃ k, at_path v path = .error (.keyError k)) ∧
    (∀ e, has v path = .error e →
      at_path v path = .error e ∧ isLookupError e = false) := by
  cases h : getitem v path with
  | ok w =>
    simp only [has, at_path, h]
    refine ⟨by simp, ⟨fun hf => absurd hf (by simp), ?_⟩, fun e he => absurd he (by simp)⟩
    rintro ⟨k, hk⟩
    exact absurd (JSNOT_init_error_eq w _ hk) (by simp)
  | error e =>
    simp only [has, at_path, h]
    cases hl : isLookupError e with
    | true =>
      cases e with
      | keyError k =>
        simp only [isLookupError, if_true]
        refine ⟨⟨fun hf => absurd hf (by simp), ?_⟩, ⟨fun _ => ⟨k, rfl⟩, fun _ => by trivial⟩,
          fun e' he' => absurd he' (by simp)⟩
        rintro ⟨w, hw⟩
        exact Except.noConfusion hw
      | typeError c => simp [isLookupError] at hl
      | jsonDecodeError => simp [isLookupError] at hl
    | false =>
      simp only [hl, Bool.false_eq_true, if_false]
      refine ⟨⟨fun hf => absurd hf (by simp), ?_⟩, ⟨fun hf => absurd hf (by simp), ?_⟩,
        fun e' he' => ?_⟩
      · rintro ⟨w, hw⟩
        exact Except.noConfusion hw
      · rintro ⟨k, hk⟩
        injection hk with hk'
        rw [hk'] at hl
        simp [isLookupError] at hl
      · injection he' with he''
        rw [← he'']
        exact ⟨rfl, hl⟩

/-- Witness for the amended claim C3 at concrete inputs: a traversal that
hits a non-mapping mid-path makes both `has` and `at_path` raise the same
`TypeError`, and a resolving path makes `has` answer true. -/
theorem C3_amended_witness :
    (at_path (JValue.obj [("a", JValue.num 1)]) (String.mk ['a', '\\', 'b']) =
      .error (.typeError none) ∧ isLookupError (.typeError none) = false) ∧
    has (JValue.obj [("b", JValue.num 2)]) "b" = .ok true :=
  ⟨(C3_amended_thm (JValue.obj [("a", JValue.num 1)]) (String.mk ['a', '\\', 'b'])).2.2
      (.typeError none) rfl,
    (C3_amended_thm (JValue.obj [("b", JValue.num 2)]) "b").1.mpr ⟨JValue.num 2, rfl⟩⟩

/-! ### Claim C4 -/

/-- Claim C4, counterexample: on the wrapped mapping with the single pair
`a` to `1`, the path `a`, backslash, `b` and the default `-1`, `get`
returns neither the default nor a wrapped value: the `TypeError` raised by
indexing the non-mapping `1` is not a lookup failure, so the
`except LookupError` handler does not catch it and `get` raises — whereas
the claim states `get` either returns the default (exactly on
`KeyNotFound`) or the wrapped present value. -/
theorem C4_counterexample :
    get (JValue.obj [("a", JValue.num 1)]) (String.mk ['a', '\\', 'b'])
      (JValue.num (-1)) = .error (.typeError none) ∧
    isLookupError (.typeError none) = false :=
  ⟨rfl, rfl⟩

/-- Claim C4 (amended): `get(path, default)` returns the default as-is, not
wrapped, exactly when `atPath` fails with the lookup-failure `KeyNotFound`;
when `atPath` succeeds its value is returned wrapped; any non-lookup error
of the traversal (the `TypeError` from indexing a non-mapping mid-path, or
the decode error from re-decoding a string result) propagates.  On the
claim's own examples over the mapping `a` to (`b` to `1`): the path `a`,
backslash, `c` with default `-1` yields the bare `-1`, and the path `a`,
backslash, `b` yields a wrapper holding `1`. -/
theorem C4_amended_thm (v : JValue) (path : String) (d : JValue) :
    (get v path d = .ok (.raw d) ↔ ∃ k, at_path v path = .error (.keyError k)) ∧
    (∀ w, at_path v path = .ok w → get v path d = .ok (.jsnot w)) ∧
    (∀ e, isLookupError e = false → at_path v path = .error e →
      get v path d = .error e) ∧
    get (JValue.obj [("a", JValue.obj [("b", JValue.num 1)])])
      (String.mk ['a', '\\', 'c']) (JValue.num (-1)) = .ok (.raw (JValue.num (-1))) ∧
    get (JValue.obj [("a", JValue.obj [("b", JValue.num 1)])])
      (String.mk ['a', '\\', 'b']) (JValue.num (-1)) = .ok (.jsnot (JValue.num 1)) := by
  refine ⟨?_, fun w hw => by simp only [get, hw], fun e he hw => by
    simp only [get, hw, he, Bool.false_eq_true, if_false], rfl, rfl⟩
  cases h : at_path v path with
  | ok w =>
    simp only [get, h]
    exact ⟨fun hf => absurd hf (by simp), fun ⟨k, hk⟩ => Except.noConfusion hk⟩
  | error e =>
    simp only [get, h]
    cases e with
    | keyError k =>
      simp only [isLookupError, if_true]
      exact ⟨fun _ => ⟨k, rfl⟩, fun _ => by trivial⟩
    | typeError c =>
      simp only [isLookupError, Bool.false_eq_true, if_false]
      exact ⟨fun hf => Except.noConfusion hf, fun ⟨k, hk⟩ => by injection hk with hk'; exact Err.noConfusion hk'⟩
    | jsonDecodeError =>
      simp only [isLookupError, Bool.false_eq_true, if_false]
      exact ⟨fun hf => Except.noConfusion hf, fun ⟨k, hk⟩ => by injection hk with hk'; exact Err.noConfusion hk'⟩

/-- Witness for the amended claim C4 at concrete inputs: a present value is
returned wrapped, and a mid-path non-mapping makes `get` raise the
`TypeError`. -/
theorem C4_amended_witness :
    get (JValue.obj [("a", JValue.num 1)]) "a" JValue.null = .ok (.jsnot (JValue.num 1)) ∧
    get (JValue.obj [("a", JValue.num 1)]) (String.mk ['a', '\\', 'b']) JValue.null =
      .error (.typeError none) :=
  ⟨(C4_amended_thm (JValue.obj [("a", JValue.num 1)]) "a" JValue.null).2.1
      (JValue.num 1) rfl,
    (C4_amended_thm (JValue.obj [("a", JValue.num 1)]) (String.mk ['a', '\\', 'b'])
      JValue.null).2.2.1 (.typeError none) rfl rfl⟩

/-! ### Helper lemmas about decoded string lengths -/

theorem skipWs_length_le (cs : List Char) : (skipWs cs).length ≤ cs.length := by
  induction cs with
  | nil => simp [skipWs]
  | cons c rest ih =>
    simp only [skipWs, List.dropWhile_cons]
    split
    · exact Nat.le_succ_of_le ih
    · simp

/-- The string scanner consumes strictly more characters than it yields: the
decoded content is strictly shorter than the scanned input (the closing
quote, at least, is consumed but not part of the content). -/
theorem parseString_length : ∀ cs content rest,
    parseString cs = some (content, rest) → content.length < cs.length := by
  intro cs
  induction cs using parseString.induct with
  | case1 =>
    intro content rest h
    exact Option.noConfusion h
  | case2 r =>
    intro content rest h
    simp only [parseString] at h
    injection h with h'
    injection h' with h1 h2
    subst h1
    simp
  | case3 h1 h2 h3 h4 r a b c d hx4 hx3 hx2 hx1 ih =>
    intro content rest h
    simp only [parseString, hx1, hx2, hx3, hx4] at h
    cases hps : parseString r with
    | none => rw [hps] at h; exact Option.noConfusion h
    | some p =>
      rw [hps] at h
      injection h with h'
      injection h' with hc hr
      have := ih p.1 p.2 (by rw [hps])
      subst hc
      simp only [List.length_cons]
      omega
  | case4 h1 h2 h3 h4 r hfail =>
    intro content rest h
    simp only [parseString] at h
    cases hx1 : hexVal h1 with
    | none => exact Option.noConfusion h
    | some a =>
      cases hx2 : hexVal h2 with
      | none => exact Option.noConfusion h
      | some b =>
        cases hx3 : hexVal h3 with
        | none => exact Option.noConfusion h
        | some c =>
          cases hx4 : hexVal h4 with
          | none => exact Option.noConfusion h
          | some d => exact (hfail a b c d hx1 hx2 hx3 hx4).elim
  | case5 e r hne c hesc ih =>
    intro content rest h
    simp only [parseString, hesc] at h
    cases hps : parseString r with
    | none => rw [hps] at h; exact Option.noConfusion h
    | some p =>
      rw [hps] at h
      injection h with h'
      injection h' with hc hr
      have := ih p.1 p.2 (by rw [hps])
      subst hc
      simp only [List.length_cons]
      omega
  | case6 e r hne hesc =>
    intro content rest h
    simp only [parseString, hesc] at h
    exact Option.noConfusion h
  | case7 c r hq hu he hlt =>
    intro content rest h
    simp only [parseString, if_pos hlt] at h
    exact Option.noConfusion h
  | case8 c r hq hu he hnlt ih =>
    intro content rest h
    simp only [parseString, if_neg hnlt] at h
    cases hps : parseString r with
    | none => rw [hps] at h; exact Option.noConfusion h
    | some p =>
      rw [hps] at h
      injection h with h'
      injection h' with hc hr
      have := ih p.1 p.2 (by rw [hps])
      subst hc
      simp only [List.length_cons]
      omega


/-- A successful parse that yields a string value yields one strictly
shorter than the input text. -/
theorem parseValue_str_length (fuel : Nat) (cs : List Char) (t : String) (r : List Char)
    (h : parseValue fuel cs = some (.str t, r)) : t.data.length < cs.length := by
  cases fuel with
  | zero => exact Option.noConfusion h
  | succ fuel =>
    have hws := skipWs_length_le cs
    simp only [parseValue] at h
    split at h
    · simp at h
    · simp at h
    · simp at h
    · rename_i rest heq
      cases hps : parseString rest with
      | none => rw [hps] at h; exact Option.noConfusion h
      | some p =>
        rw [hps] at h
        injection h with h'
        injection h' with hv hr
        injection hv with ht
        have hlen := parseString_length rest p.1 p.2 (by rw [hps])
        have : t.data = p.1 := by rw [← ht]; rfl
        rw [heq] at hws
        simp only [List.length_cons] at hws
        rw [this]
        omega
    · rename_i rest heq
      split at h
      · simp at h
      · cases hol : objLoop (parseValue fuel) _ _ _ <;> rw [hol] at h <;> simp at h
    · rename_i rest heq
      split at h
      · simp at h
      · cases hal : arrLoop (parseValue fuel) _ _ _ <;> rw [hal] at h <;> simp at h
    · cases hpn : parseNumber (skipWs cs) <;> rw [hpn] at h <;> simp at h

/-- A decoded string value is strictly shorter than the decoded text, hence
never equal to it: the decoder never returns the input text itself as a
string value. -/
theorem json_loads_ok_ne_self (s : String) (v : JValue) (h : json_loads s = .ok v) :
    v ≠ .str s := by
  intro hv
  subst hv
  unfold json_loads at h
  split at h
  · rename_i v rest heq
    split at h
    · injection h with h'
      rw [h'] at heq
      have := parseValue_str_length (3 * s.data.length + 3) s.data s rest heq
      omega
    · exact Except.noConfusion h
  · exact Except.noConfusion h

/-! ### Claim C5 -/

/-- Claim C5, counterexample: on the wrapped mapping sending `a` to the
string `1` (valid JSON text of the number one), the single-segment path `a`
resolves, manual indexing yields the string `1`, but
`at_path("a").cast(None)` yields the number `1`: `at_path` re-wraps the
looked-up value through the constructor, which JSON-decodes string results,
so the two sides differ. -/
theorem C5_counterexample :
    getitem (JValue.obj [("a", JValue.str "1")]) "a" = .ok (JValue.str "1") ∧
    at_path (JValue.obj [("a", JValue.str "1")]) "a" = .ok (JValue.num 1) ∧
    cast (JValue.num 1) none = .raw (JValue.num 1) ∧
    JValue.num 1 ≠ JValue.str "1" :=
  ⟨rfl, rfl, rfl, fun h => JValue.noConfusion h⟩

/-- Claim C5 (amended): for a mapping-valued wrapper and a path whose every
segment resolves, `atPath(path).cast(None)` equals the value reached by
manual nested indexing whenever that value is not a string; when the
reached value is a string, `atPath` instead yields the result of
JSON-decoding it (or the decode error, on invalid JSON text). -/
theorem C5_amended_thm (kvs : List (String × JValue)) (path : String) (w : JValue)
    (h : getitem (JValue.obj kvs) path = .ok w) :
    ((∀ s, w ≠ JValue.str s) →
      at_path (JValue.obj kvs) path = .ok w ∧ cast w none = .raw w) ∧
    (∀ s, w = JValue.str s → at_path (JValue.obj kvs) path = json_loads s) := by
  unfold at_path
  rw [h]
  constructor
  · intro hw
    refine ⟨?_, rfl⟩
    cases w with
    | obj kvs2 => rfl
    | arr l => rfl
    | str s => exact absurd rfl (hw s)
    | num n => rfl
    | bool b => rfl
    | null => rfl
  · intro s hs
    subst hs
    rfl

/-- Witness for the amended claim C5 at concrete inputs: a resolving
non-string value passes through `at_path` and `cast(None)` unchanged, and a
resolving string value is redirected through the decoder. -/
theorem C5_amended_witness :
    (at_path (JValue.obj [("a", JValue.num 2)]) "a" = .ok (JValue.num 2) ∧
      cast (JValue.num 2) none = .raw (JValue.num 2)) ∧
    at_path (JValue.obj [("b", JValue.str "true")]) "b" = json_loads "true" :=
  ⟨(C5_amended_thm [("a", JValue.num 2)] "a" (JValue.num 2) rfl).1
      (fun _ hs => JValue.noConfusion hs),
    (C5_amended_thm [("b", JValue.str "true")] "b" (JValue.str "true") rfl).2
      "true" rfl⟩

/-! ### Claim C6 -/

/-- Claim C6: when the raw lookup yields a string `s`, `atPath` does not
wrap `s` itself: it returns a wrapper holding the JSON-decode of `s` when
`s` is valid JSON text, and fails with the decode error — not with
`KeyNotFound` — when it is not; in the failing case `has` still returns
true and `get` propagates the decode error instead of returning the
default. -/
theorem C6_thm (root : JValue) (path : String) (s : String)
    (h : getitem root path = .ok (JValue.str s)) :
    (∀ v, json_loads s = .ok v →
      at_path root path = .ok v ∧ v ≠ JValue.str s) ∧
    (∀ e, json_loads s = .error e →
      e = .jsonDecodeError ∧ at_path root path = .error e ∧
      isLookupError e = false ∧ has root path = .ok true ∧
      ∀ d, get root path d = .error e) := by
  have hap : at_path root path = json_loads s := by
    unfold at_path
    rw [h]
    rfl
  constructor
  · intro v hv
    exact ⟨hap.trans hv, json_loads_ok_ne_self s v hv⟩
  · intro e he
    have hed := json_loads_error_eq s e he
    subst hed
    refine ⟨rfl, hap.trans he, rfl, ?_, fun d => ?_⟩
    · unfold has
      rw [h]
    · unfold get
      rw [hap, he]
      rfl

/-- Witness for claim C6 at concrete inputs: a valid JSON string result is
decoded before wrapping, an invalid one makes `at_path` and `get` fail with
the decode error while `has` still answers true. -/
theorem C6_witness :
    at_path (JValue.obj [("a", JValue.str "[1]")]) "a" = .ok (JValue.arr [JValue.num 1]) ∧
    JValue.arr [JValue.num 1] ≠ JValue.str "[1]" ∧
    at_path (JValue.obj [("a", JValue.str "oops")]) "a" = .error .jsonDecodeError ∧
    has (JValue.obj [("a", JValue.str "oops")]) "a" = .ok true ∧
    get (JValue.obj [("a", JValue.str "oops")]) "a" JValue.null = .error .jsonDecodeError := by
  have h1 := (C6_thm (JValue.obj [("a", JValue.str "[1]")]) "a" "[1]" rfl).1
    (JValue.arr [JValue.num 1]) rfl
  have h2 := (C6_thm (JValue.obj [("a", JValue.str "oops")]) "a" "oops" rfl).2
    .jsonDecodeError rfl
  exact ⟨h1.1, h1.2, h2.2.1, h2.2.2.2.1, h2.2.2.2.2 JValue.null⟩

/-! ### Claim C9 -/

/-- Claim C9: `satisfy(k)` fails with the `TypeError` carrying `k` exactly
when the wrapped value is not an instance of `k`, and otherwise returns the
very same wrapper; hence chaining a second identical `satisfy` changes
nothing — the chained call succeeds exactly when the single call does, with
the same result. -/
theorem C9_thm (v : JValue) (k : PyClass) :
    (isInstance v k = false → satisfy v k = .error (.typeError (some k))) ∧
    (isInstance v k = true → satisfy v k = .ok v) ∧
    ((satisfy v k).bind fun w => satisfy w k) = satisfy v k := by
  refine ⟨fun h => by simp [satisfy, h], fun h => by simp [satisfy, h], ?_⟩
  cases hi : isInstance v k with
  | false => simp [satisfy, hi, Except.bind]
  | true => simp [satisfy, hi, Except.bind]

/-- Witness for claim C9 at concrete inputs: a matching kind returns the
same wrapper, a mismatching kind fails with the `TypeError` carrying the
expected kind. -/
theorem C9_witness :
    isInstance (JValue.num 3) PyClass.int = true ∧
    satisfy (JValue.num 3) PyClass.int = .ok (JValue.num 3) ∧
    isInstance (JValue.str "x") PyClass.dict = false ∧
    satisfy (JValue.str "x") PyClass.dict = .error (.typeError (some PyClass.dict)) :=
  ⟨rfl, (C9_thm (JValue.num 3) PyClass.int).2.1 rfl, rfl,
    (C9_thm (JValue.str "x") PyClass.dict).1 rfl⟩

/-! ### Claim C10 -/

/-- Claim C10, counterexample: casting the wrapped number `19` to `float`
returns the class `int` — the runtime class of the wrapped value — not the
requested type object `float` (and not a converted value): `cast` computes
`type(val)`, so the claim that the given type object itself is returned is
false. -/
theorem C10_counterexample :
    cast (JValue.num 19) (some PyClass.float) = .cls PyClass.int ∧
    PyClass.int ≠ PyClass.float ∧
    cast (JValue.num 19) (some PyClass.float) ≠ .cls PyClass.float :=
  ⟨rfl, by decide, fun h => by
    injection h with h'
    exact PyClass.noConfusion h'⟩

/-- Claim C10 (amended): `cast(targetType)` returns the raw wrapped value
unchanged when `targetType` is absent/null, and when a type is given it
performs no value conversion and returns the runtime class of the wrapped
value (the result of `type(val)`), regardless of which type was
requested. -/
theorem C10_amended_thm (v : JValue) (t : PyClass) :
    cast v none = .raw v ∧ cast v (some t) = .cls (typeOf v) :=
  ⟨rfl, rfl⟩

/-- Witness for the amended claim C10 at a concrete value and type. -/
theorem C10_amended_witness :
    cast (JValue.num 19) none = .raw (JValue.num 19) ∧
    cast (JValue.num 19) (some PyClass.float) = .cls (typeOf (JValue.num 19)) :=
  C10_amended_thm (JValue.num 19) PyClass.float

end Jsnot
